import Mathlib

/-!
Verification of the Greenbone-distributed scan hub (`src/src`): the scan
lifecycle engine (`scan_manager.py`), the report summary of the GMP adapter
(`gvm_client.py`), and the persistence layer (`database.py`), shallowly
embedded in Lean.  Timestamps are abstracted to integers (ISO-8601 order
agrees with time order), GMP wire traffic to an environment of typed
operation outcomes, and XML documents to a tree of tagged elements.
-/

namespace ScanHub

/-! ## GMP status domain (`scan_manager.py` TERMINAL_STATUSES / ERROR_STATUSES) -/

/-- `TERMINAL_STATUSES` from `scan_manager.py`: GVM statuses after which polling
stops. -/
def TERMINAL_STATUSES : List String := ["Done", "Stopped", "Interrupted"]

/-- `ERROR_STATUSES` from `scan_manager.py`: terminal statuses that mean the
scan failed or was aborted. -/
def ERROR_STATUSES : List String := ["Stopped", "Interrupted"]

/-! ## XML documents and `GVMSession.parse_report_summary` (`gvm_client.py`)

An XML element carries a tag, optional text and child elements.  The only
text the summary code reads is a severity, parsed by the Python float constructor; the
model stores element text directly as an optional rational (absent covers
both a missing text node and an empty string, which the source treats
alike). -/

inductive Xml where
  | elem (tag : String) (text : Option ℚ) (children : List Xml)

def Xml.tag : Xml → String
  | .elem t _ _ => t

def Xml.text : Xml → Option ℚ
  | .elem _ tx _ => tx

def Xml.children : Xml → List Xml
  | .elem _ _ cs => cs

mutual

/-- All strict descendants of an element in document order; `findall(".//t")`
is this list filtered by tag `t`. -/
def xmlDescendants : Xml → List Xml
  | .elem _ _ cs => xmlDescendantsList cs

def xmlDescendantsList : List Xml → List Xml
  | [] => []
  | x :: xs => x :: (xmlDescendants x ++ xmlDescendantsList xs)

end

/-- `ElementTree.findall(".//tag")` relative to `x`. -/
def findallDesc (t : String) (x : Xml) : List Xml :=
  (xmlDescendants x).filter (fun e => e.tag = t)

/-- `ElementTree.find(".//tag")` relative to `x`: first match in document
order. -/
def findDesc (t : String) (x : Xml) : Option Xml :=
  (findallDesc t x).head?

/-- `VulnSummary` dataclass from `gvm_client.py`. -/
structure VulnSummary where
  hostsScanned : Nat := 0
  vulnsHigh : Nat := 0
  vulnsMedium : Nat := 0
  vulnsLow : Nat := 0
  vulnsLog : Nat := 0
deriving DecidableEq

/-- The severity classification in the loop body of `parse_report_summary`. -/
def classifySeverity (s : VulnSummary) (v : ℚ) : VulnSummary :=
  if 7 ≤ v then { s with vulnsHigh := s.vulnsHigh + 1 }
  else if 4 ≤ v then { s with vulnsMedium := s.vulnsMedium + 1 }
  else if 0 < v then { s with vulnsLow := s.vulnsLow + 1 }
  else { s with vulnsLog := s.vulnsLog + 1 }

/-- The severity of one `result` element: `result.find(".//severity")`,
counted only when the element exists and has text. -/
def resultSeverity (r : Xml) : Option ℚ :=
  (findDesc "severity" r).bind Xml.text

/-- One iteration of the `for result in results` loop. -/
def summarizeStep (acc : VulnSummary) (r : Xml) : VulnSummary :=
  match resultSeverity r with
  | some v => classifySeverity acc v
  | none => acc

/-- `GVMSession.parse_report_summary` over a parsed report tree. -/
def parseReportSummary (root : Xml) : VulnSummary :=
  (findallDesc "result" root).foldl summarizeStep
    { hostsScanned := (findallDesc "host" root).length }

/-- The severities the loop actually classifies, in order. -/
def resultSeverities (root : Xml) : List ℚ :=
  (findallDesc "result" root).filterMap resultSeverity

/-! ## Persistence layer (`database.py`)

The two tables are modelled as lists of rows.  Timestamps are integers
(ISO-8601 strings compare in time order); JSON blobs for ports and tags are
kept structured / opaque. -/

/-- A row of the `targets` table. -/
structure CatalogTarget where
  externalId : String
  host : String
  ports : Option (List Nat) := none
  scanType : String := "full"
  scanConfig : Option String := none
  criticality : String := "medium"
  criticalityWeight : Int := 2
  scanFrequencyHours : Int := 168
  enabled : Bool := true
  tags : Option String := none
  gvmTargetId : Option String := none
  gvmPortListId : Option String := none
  lastScanAt : Option Int := none
  nextScanAt : Option Int := none
  lastScanId : Option String := none
  syncedAt : Int := 0
  createdAt : Int := 0
deriving DecidableEq

/-- The columns of a `scans` row that the schedule and load queries read. -/
structure DbScan where
  probeName : String
  externalTargetId : Option String := none
  completedAt : Option Int := none
deriving DecidableEq

/-- `CRITICALITY_WEIGHTS.get(c, 2)` from `database.py`. -/
def criticalityWeightOf (c : String) : Int :=
  if c = "critical" then 4
  else if c = "high" then 3
  else if c = "medium" then 2
  else if c = "low" then 1
  else 2

/-! ### `ScanDatabase.get_due_targets` -/

/-- The `EXISTS` subquery: some scan row for this external target has
`completed_at IS NULL`. -/
def hasActiveScan (scans : List DbScan) (eid : String) : Bool :=
  scans.any (fun s => decide (s.externalTargetId = some eid ∧ s.completedAt = none))

/-- The row predicate of the `get_due_targets` query (a `next_scan_at` of
NULL never satisfies `next_scan_at <= now` in SQL). -/
def isDue (now : Int) (scans : List DbScan) (t : CatalogTarget) : Bool :=
  t.enabled &&
    (match t.nextScanAt with
      | some ts => decide (ts ≤ now)
      | none => false) &&
    !(hasActiveScan scans t.externalId)

/-- `ORDER BY criticality_weight DESC`. -/
def dueOrder (a b : CatalogTarget) : Prop :=
  b.criticalityWeight ≤ a.criticalityWeight

instance : DecidableRel dueOrder := fun a b =>
  inferInstanceAs (Decidable (b.criticalityWeight ≤ a.criticalityWeight))

instance : IsTotal CatalogTarget dueOrder :=
  ⟨fun a b => le_total b.criticalityWeight a.criticalityWeight⟩

instance : IsTrans CatalogTarget dueOrder :=
  ⟨fun _ _ _ h1 h2 => le_trans h2 h1⟩

/-- `ScanDatabase.get_due_targets`: one query filtering by the due predicate
and ordering by criticality weight, highest first. -/
def getDueTargets (now : Int) (targets : List CatalogTarget)
    (scans : List DbScan) : List CatalogTarget :=
  List.insertionSort dueOrder (targets.filter (isDue now scans))

/-! ### `ScanDatabase.update_target_schedule` -/

/-- `ScanDatabase.update_target_schedule(external_id, scan_id)`: look the row
up, and when present set `last_scan_at = now`,
`next_scan_at = now + scan_frequency_hours` (hours, in seconds here) and
`last_scan_id = scan_id`. -/
def updateTargetSchedule (now : Int) (externalId scanId : String)
    (targets : List CatalogTarget) : List CatalogTarget :=
  match targets.find? (fun t => t.externalId == externalId) with
  | none => targets
  | some row =>
    let next := now + row.scanFrequencyHours * 3600
    targets.map (fun t =>
      if t.externalId = externalId then
        { t with lastScanAt := some now, nextScanAt := some next,
                 lastScanId := some scanId }
      else t)

/-- A catalog row with a zero scan frequency, as the external source may
deliver (nothing validates `scan_frequency_hours > 0`). -/
def zeroFreqTarget : CatalogTarget :=
  { externalId := "t1", host := "10.0.0.9", scanFrequencyHours := 0 }

/-! ### `ScanDatabase.upsert_target` -/

/-- One entry of the targets payload of the external source, as read by
`upsert_target` (each field via `target.get(...)` with its default). -/
structure SyncTarget where
  id : String
  host : String
  ports : Option (List Nat) := none
  scanType : Option String := none
  criticality : Option String := none
  scanFrequencyHours : Option Int := none
  enabled : Option Bool := none
  tags : Option String := none
deriving DecidableEq

/-- Python truthiness on the ports payload: an absent or empty list is
stored as NULL. -/
def encodePorts (ps : Option (List Nat)) : Option (List Nat) :=
  match ps with
  | some (p :: rest) => some (p :: rest)
  | _ => none

/-- The `UPDATE targets SET ...` branch of `upsert_target`. -/
def applySyncUpdate (now : Int) (inp : SyncTarget) (t : CatalogTarget) : CatalogTarget :=
  { t with
    host := inp.host
    ports := encodePorts inp.ports
    scanType := inp.scanType.getD "full"
    criticality := inp.criticality.getD "medium"
    criticalityWeight := criticalityWeightOf (inp.criticality.getD "medium")
    scanFrequencyHours := inp.scanFrequencyHours.getD 168
    enabled := inp.enabled.getD true
    tags := inp.tags
    syncedAt := now }

/-- The `INSERT INTO targets ...` branch of `upsert_target`: fresh rows get
`next_scan_at = now` so they are immediately due. -/
def newSyncRow (now : Int) (inp : SyncTarget) : CatalogTarget :=
  { externalId := inp.id
    host := inp.host
    ports := encodePorts inp.ports
    scanType := inp.scanType.getD "full"
    scanConfig := none
    criticality := inp.criticality.getD "medium"
    criticalityWeight := criticalityWeightOf (inp.criticality.getD "medium")
    scanFrequencyHours := inp.scanFrequencyHours.getD 168
    enabled := inp.enabled.getD true
    tags := inp.tags
    gvmTargetId := none
    gvmPortListId := none
    lastScanAt := none
    nextScanAt := some now
    lastScanId := none
    syncedAt := now
    createdAt := now }

/-- `ScanDatabase.upsert_target`. -/
def upsertTarget (now : Int) (inp : SyncTarget)
    (targets : List CatalogTarget) : List CatalogTarget :=
  if targets.any (fun t => t.externalId == inp.id) then
    targets.map (fun t => if t.externalId = inp.id then applySyncUpdate now inp t else t)
  else
    targets ++ [newSyncRow now inp]

/-- A concrete existing catalog row used by witnesses. -/
def existingRowExample : CatalogTarget :=
  { externalId := "web-1", host := "10.0.0.5", nextScanAt := some 7,
    lastScanAt := some 3, lastScanId := some "s-old", createdAt := 1,
    gvmTargetId := some "G1", gvmPortListId := some "P1" }

/-- A concrete sync payload entry used by witnesses. -/
def syncInputExample : SyncTarget :=
  { id := "web-1", host := "10.0.0.6", ports := some [22, 443],
    criticality := some "high", scanFrequencyHours := some 12,
    enabled := some true, tags := some "prod" }

/-! ## Probe selection (`ScanManager.create_scan` + `count_active_per_probe`)

`database.py` provides the per-probe active-scan counts; the selector that
consumes them is exercised by the API layer (`api.py` passes `probe_name`
through `create_scan`) but its body is not among the sources. -/

/-- `ScanDatabase.count_active_per_probe`: active means `completed_at IS
NULL`; viewed as a total map, probes with no active scans count 0. -/
def countActivePerProbe (scans : List DbScan) (p : String) : Nat :=
  (scans.filter (fun s => decide (s.probeName = p ∧ s.completedAt = none))).length

/-- Modelled from the spec: the load-minimum walk of the probe selector,
whose implementation (the probe-selection body of `ScanManager.create_scan`) is
not among the sources.  Folds over the configured probe order keeping the
first probe with the least active count (strict `<` keeps earlier probes on
ties). -/
def chooseMinProbe (counts : String → Nat) : String → List String → String
  | best, [] => best
  | best, q :: rest => chooseMinProbe counts (if counts q < counts best then q else best) rest

/-- Modelled from the spec: probe selection — an explicit, registered name
wins; an explicit unregistered name is an UnknownProbe error; otherwise the
probe with the minimum active count, ties broken by configured order. -/
def selectProbe (probes : List String) (explicit : Option String)
    (counts : String → Nat) : Except String String :=
  match explicit with
  | some p => if p ∈ probes then .ok p else .error ("Unknown probe: " ++ p)
  | none =>
    match probes with
    | [] => .error "No probe available"
    | p :: rest => .ok (chooseMinProbe counts p rest)

/-- Two active scans on `p1`, none on `p2`. -/
def loadExampleScans : List DbScan :=
  [{ probeName := "p1" }, { probeName := "p1" }]

/-! ## Scan lifecycle engine (`scan_manager.py`)

`_run_scan_blocking` drives one scan against a GMP session.  The session is
abstracted to an environment of operation outcomes; the run returns the
final scan record together with the trace of GMP calls it issued.  An
exception in Python is a pending `some message` threaded past the remaining
steps into the handler of `_run_scan_blocking`, which marks the scan failed.
Wall-clock instants are irrelevant to the claims, so timestamps are recorded
as `some 0`; elapsed poll time is iteration-count × poll-interval. -/

/-- `ScanType` from `models.py`. -/
inductive ScanType where
  | full
  | directed
deriving DecidableEq

/-- `ScanRecord` from `models.py` (the fields the lifecycle engine reads or
writes). -/
structure ScanRecord where
  scanId : String
  scanType : ScanType
  ports : Option (List Nat) := none
  gvmTargetId : Option String := none
  gvmTaskId : Option String := none
  gvmReportId : Option String := none
  gvmPortListId : Option String := none
  gvmStatus : String := "New"
  gvmProgress : Int := 0
  startedAt : Option Nat := none
  completedAt : Option Nat := none
  reportXml : Option Xml := none
  summary : Option VulnSummary := none
  error : Option String := none

/-- `ScanConfig` from `config.py` (the fields the engine uses). -/
structure EngineConfig where
  pollInterval : Nat
  maxDuration : Nat
  cleanupAfterReport : Bool

/-- Outcomes of the GMP operations a run may perform.  `pollStatus i` is the
`get_task_status` answer at the i-th poll. -/
structure GVMEnv where
  connect : Except String Unit
  createPortList : Except String String
  createTarget : Except String String
  createTask : Except String String
  startTask : Except String String
  pollStatus : Nat → Except String (String × Int)
  stopTask : Except String Unit
  getReport : Except String Xml
  deleteTask : Except String Unit
  deleteTarget : Except String Unit
  deletePortList : Except String Unit

/-- The GMP calls a run issues, in order. -/
inductive GmpCall where
  | createPortList (name portRange : String)
  | createTarget (name : String)
  | createTask (name : String)
  | startTask (taskId : String)
  | pollStatus (i : Nat)
  | stopTask (taskId : String)
  | getReport (reportId : String)
  | deleteTask (id : String)
  | deleteTarget (id : String)
  | deletePortList (id : String)
deriving DecidableEq

/-- `port_range = ",".join(f"T:{p}" for p in ports)` in
`GVMSession.create_port_list`. -/
def portRangeString (ps : List Nat) : String :=
  String.intercalate "," (ps.map (fun p => "T:" ++ toString p))

/-- Python truthiness of `record.ports`: a non-empty list. -/
def portsTruthy (r : ScanRecord) : Bool :=
  match r.ports with
  | some (_ :: _) => true
  | _ => false

/-- The port-list step of `_create_gvm_resources`: only a directed scan with
a non-empty port list creates a GMP port list, named
`scan-<scan_id>-ports` and carrying the `T:`-prefixed comma-joined ports;
its id is persisted at once. -/
def createPortListStep (env : GVMEnv) (r : ScanRecord) :
    ScanRecord × List GmpCall × Option String :=
  if r.scanType = ScanType.directed ∧ portsTruthy r = true then
    match env.createPortList with
    | .error e => (r, [GmpCall.createPortList ("scan-" ++ r.scanId ++ "-ports") (portRangeString (r.ports.getD []))], some e)
    | .ok plid => ({ r with gvmPortListId := some plid },
        [GmpCall.createPortList ("scan-" ++ r.scanId ++ "-ports") (portRangeString (r.ports.getD []))], none)
  else (r, [], none)

/-- `ScanManager._create_gvm_resources`: port list (directed scans with
ports only), then target, then task, persisting each id. -/
def createGvmResources (env : GVMEnv) (r : ScanRecord) :
    ScanRecord × List GmpCall × Option String :=
  match createPortListStep env r with
  | (r1, t1, some e) => (r1, t1, some e)
  | (r1, t1, none) =>
    match env.createTarget with
    | .error e => (r1, t1 ++ [GmpCall.createTarget ("scan-" ++ r.scanId ++ "-target")], some e)
    | .ok tid =>
      match env.createTask with
      | .error e => ({ r1 with gvmTargetId := some tid },
          t1 ++ [GmpCall.createTarget ("scan-" ++ r.scanId ++ "-target"), GmpCall.createTask ("scan-" ++ r.scanId)], some e)
      | .ok kid =>
        ({ r1 with gvmTargetId := some tid, gvmTaskId := some kid },
          t1 ++ [GmpCall.createTarget ("scan-" ++ r.scanId ++ "-target"), GmpCall.createTask ("scan-" ++ r.scanId)], none)

/-- The timeout message of `_start_and_poll`. -/
def timeoutMsg (elapsed maxDuration : Nat) : String :=
  "Scan timed out after " ++ toString elapsed ++ "s (max: " ++ toString maxDuration ++ "s)"

/-- The poll loop of `_start_and_poll`.  At iteration `i` the elapsed time
is `i * p`; when it exceeds `d` the task is stopped and the scan marked
timed out, otherwise the status is polled, persisted, and the loop ends on
a terminal status.  The fuel only bounds the recursion; with a positive
poll interval it never runs out (`pollLoop_timeout`). -/
def pollLoop (env : GVMEnv) (p d : Nat) (tid : String) :
    ScanRecord → Nat → Nat → ScanRecord × List GmpCall × Option String
  | r, 0, _ => (r, [], some "poll loop fuel exhausted")
  | r, fuel + 1, i =>
    if d < i * p then
      match env.stopTask with
      | .error e => (r, [GmpCall.stopTask tid], some e)
      | .ok _ => ({ r with error := some (timeoutMsg (i * p) d) },
          [GmpCall.stopTask tid], none)
    else
      match env.pollStatus i with
      | .error e => (r, [GmpCall.pollStatus i], some e)
      | .ok (st, pr) =>
        let r1 := { r with gvmStatus := st, gvmProgress := max 0 pr }
        if st ∈ TERMINAL_STATUSES then (r1, [GmpCall.pollStatus i], none)
        else
          match pollLoop env p d tid r1 fuel (i + 1) with
          | (r2, t2, e2) => (r2, GmpCall.pollStatus i :: t2, e2)

/-- `ScanManager._start_and_poll`: start the task, persist report id and
start time, poll to a terminal status or timeout, then set `completed_at`
and, for an error-terminal status, the error message. -/
def startAndPoll (cfg : EngineConfig) (env : GVMEnv) (r : ScanRecord) :
    ScanRecord × List GmpCall × Option String :=
  match r.gvmTaskId with
  | none => (r, [], some ("Scan " ++ r.scanId ++ " has no GVM task ID"))
  | some tid =>
    match env.startTask with
    | .error e => (r, [GmpCall.startTask tid], some e)
    | .ok rid =>
      let r1 := { r with gvmReportId := some rid, startedAt := some 0 }
      match pollLoop env cfg.pollInterval cfg.maxDuration tid r1 (cfg.maxDuration + 2) 0 with
      | (r2, t2, some e) => (r2, GmpCall.startTask tid :: t2, some e)
      | (r2, t2, none) =>
        let r3 := { r2 with completedAt := some 0 }
        let r4 :=
          if r3.gvmStatus ∈ ERROR_STATUSES then
            { r3 with error := some ("Scan ended with status: " ++ r3.gvmStatus) }
          else r3
        (r4, GmpCall.startTask tid :: t2, none)

/-- `ScanManager._collect_report`: only when the terminal status is `Done`
fetch the report and persist `report_xml` with its summary. -/
def collectReport (env : GVMEnv) (r : ScanRecord) :
    ScanRecord × List GmpCall × Option String :=
  match r.gvmReportId with
  | none => (r, [], none)
  | some rid =>
    if r.gvmStatus = "Done" then
      match env.getReport with
      | .error e => (r, [GmpCall.getReport rid], some e)
      | .ok xml =>
        ({ r with reportXml := some xml, summary := some (parseReportSummary xml) },
          [GmpCall.getReport rid], none)
    else (r, [], none)

/-- `ScanManager._cleanup_gvm_resources`: attempt to delete task, then
target, then port list — each only if its id was persisted, each wrapped in
its own handler so any outcome (the match consults it) leaves the remaining
deletions attempted and raises nothing. -/
def cleanupTrace (env : GVMEnv) (r : ScanRecord) : List GmpCall :=
  (match r.gvmTaskId with
    | some id =>
      match env.deleteTask with
      | .ok _ => [GmpCall.deleteTask id]
      | .error _ => [GmpCall.deleteTask id]
    | none => []) ++
  (match r.gvmTargetId with
    | some id =>
      match env.deleteTarget with
      | .ok _ => [GmpCall.deleteTarget id]
      | .error _ => [GmpCall.deleteTarget id]
    | none => []) ++
  (match r.gvmPortListId with
    | some id =>
      match env.deletePortList with
      | .ok _ => [GmpCall.deletePortList id]
      | .error _ => [GmpCall.deletePortList id]
    | none => [])

/-- The exception handlers of `_run_scan_blocking` (connection and generic):
persist the error and `completed_at`. -/
def markFailed (r : ScanRecord) (e : String) : ScanRecord :=
  { r with error := some e, completedAt := some 0 }

/-- `ScanManager._run_scan_blocking`: connect, create resources, start and
poll, collect the report, clean up when enabled; any raised step lands in
the handler that marks the scan failed and skips the remaining steps. -/
def runScanBlocking (cfg : EngineConfig) (env : GVMEnv) (r0 : ScanRecord) :
    ScanRecord × List GmpCall :=
  match env.connect with
  | .error e => (markFailed r0 e, [])
  | .ok _ =>
    match createGvmResources env r0 with
    | (r1, t1, some e) => (markFailed r1 e, t1)
    | (r1, t1, none) =>
      match startAndPoll cfg env r1 with
      | (r2, t2, some e) => (markFailed r2 e, t1 ++ t2)
      | (r2, t2, none) =>
        match collectReport env r2 with
        | (r3, t3, some e) => (markFailed r3 e, t1 ++ t2 ++ t3)
        | (r3, t3, none) =>
          (r3, t1 ++ t2 ++ t3 ++
            if cfg.cleanupAfterReport then cleanupTrace env r3 else [])

/-! ### Poll-loop lemmas -/

/-! ### Step summaries for `_run_scan_blocking` -/

/-! ### Resource-creation lemmas -/

/-! ### Timeout behavior (C7) -/

/-- The environment of the timeout scenario: every GMP operation succeeds
and polling reports `Running(10)` forever. -/
def timeoutEnv : GVMEnv :=
  { connect := .ok (), createPortList := .ok "PL1", createTarget := .ok "T1",
    createTask := .ok "K1", startTask := .ok "R1",
    pollStatus := fun _ => .ok ("Running", 10), stopTask := .ok (),
    getReport := .error "unused", deleteTask := .ok (), deleteTarget := .ok (),
    deletePortList := .ok () }

/-- One-second polls against a three-second budget, cleanup enabled. -/
def timeoutCfg : EngineConfig :=
  { pollInterval := 1, maxDuration := 3, cleanupAfterReport := true }

/-- A fresh full scan record. -/
def timeoutRec : ScanRecord := { scanId := "s1", scanType := ScanType.full }

/-! ### Port-list creation (C4) -/

/-- Recognizer for `create_port_list` calls in a trace. -/
def isCreatePortListCall : GmpCall → Bool
  | .createPortList _ _ => true
  | _ => false

/-- A directed scan of three ports. -/
def directedRec : ScanRecord :=
  { scanId := "s2", scanType := ScanType.directed, ports := some [22, 80, 443] }

/-! ## Theorems -/

theorem error_subset_terminal : ∀ s ∈ ERROR_STATUSES, s ∈ TERMINAL_STATUSES := by
  decide

theorem foldl_summarizeStep (rs : List Xml) (acc : VulnSummary) :
    ((rs.foldl summarizeStep acc).hostsScanned = acc.hostsScanned) ∧
    ((rs.foldl summarizeStep acc).vulnsHigh =
      acc.vulnsHigh + (rs.filterMap resultSeverity).countP (fun v => decide (7 ≤ v))) ∧
    ((rs.foldl summarizeStep acc).vulnsMedium =
      acc.vulnsMedium +
        (rs.filterMap resultSeverity).countP (fun v => decide (¬ 7 ≤ v ∧ 4 ≤ v))) ∧
    ((rs.foldl summarizeStep acc).vulnsLow =
      acc.vulnsLow +
        (rs.filterMap resultSeverity).countP (fun v => decide (¬ 7 ≤ v ∧ ¬ 4 ≤ v ∧ 0 < v))) ∧
    ((rs.foldl summarizeStep acc).vulnsLog =
      acc.vulnsLog +
        (rs.filterMap resultSeverity).countP
          (fun v => decide (¬ 7 ≤ v ∧ ¬ 4 ≤ v ∧ ¬ 0 < v))) := by
  induction rs generalizing acc with
  | nil => simp
  | cons r rs ih =>
    simp only [List.foldl_cons, List.filterMap_cons]
    cases hsev : resultSeverity r with
    | none =>
      simpa [summarizeStep, hsev] using ih acc
    | some v =>
      have ih2 := ih (summarizeStep acc r)
      simp only [summarizeStep, hsev] at ih2 ⊢
      rcases ih2 with ⟨h0, h1, h2, h3, h4⟩
      refine ⟨?_, ?_, ?_, ?_, ?_⟩
      all_goals first
        | (rw [h0]; unfold classifySeverity; split_ifs <;> simp)
        | (first | rw [h1] | rw [h2] | rw [h3] | rw [h4]
           unfold classifySeverity
           split_ifs with hA hB hC <;>
             (simp_all [List.countP_cons]; try omega))

/-- C5: the report summary counts every `.//host` element as a scanned host
and classifies each `.//result` element by its first `.//severity` value:
at least 7.0 counts as high, otherwise at least 4.0 as medium, otherwise
positive as low, otherwise as log; results without a severity are not
counted. -/
theorem parse_report_summary_spec (root : Xml) :
    ((parseReportSummary root).hostsScanned = (findallDesc "host" root).length) ∧
    ((parseReportSummary root).vulnsHigh =
      (resultSeverities root).countP (fun v => decide (7 ≤ v))) ∧
    ((parseReportSummary root).vulnsMedium =
      (resultSeverities root).countP (fun v => decide (¬ 7 ≤ v ∧ 4 ≤ v))) ∧
    ((parseReportSummary root).vulnsLow =
      (resultSeverities root).countP (fun v => decide (¬ 7 ≤ v ∧ ¬ 4 ≤ v ∧ 0 < v))) ∧
    ((parseReportSummary root).vulnsLog =
      (resultSeverities root).countP (fun v => decide (¬ 7 ≤ v ∧ ¬ 4 ≤ v ∧ ¬ 0 < v))) := by
  have h := foldl_summarizeStep (findallDesc "result" root)
    { hostsScanned := (findallDesc "host" root).length }
  simpa [parseReportSummary, resultSeverities] using h

/-- C2: `get_due_targets` returns exactly the enabled targets whose
`next_scan_at` has passed and that have no in-flight scan, ordered by
criticality weight descending; the anti-duplicate exclusion is part of the
query predicate itself. -/
theorem get_due_targets_spec (now : Int) (targets : List CatalogTarget)
    (scans : List DbScan) :
    (∀ t, t ∈ getDueTargets now targets scans ↔
      (t ∈ targets ∧ t.enabled = true ∧
        (∃ ts, t.nextScanAt = some ts ∧ ts ≤ now) ∧
        ¬ ∃ s, s ∈ scans ∧ s.externalTargetId = some t.externalId ∧
          s.completedAt = none)) ∧
    (getDueTargets now targets scans).Perm (targets.filter (isDue now scans)) ∧
    (getDueTargets now targets scans).Sorted dueOrder := by
  refine ⟨?_, List.perm_insertionSort dueOrder _, List.sorted_insertionSort dueOrder _⟩
  intro t
  rw [getDueTargets, List.mem_insertionSort, List.mem_filter]
  constructor
  · rintro ⟨hmem, hdue⟩
    simp only [isDue, Bool.and_eq_true, Bool.not_eq_true'] at hdue
    obtain ⟨⟨hen, hnext⟩, hact⟩ := hdue
    refine ⟨hmem, hen, ?_, ?_⟩
    · cases hns : t.nextScanAt with
      | none => rw [hns] at hnext; exact absurd hnext (by simp)
      | some ts =>
        rw [hns] at hnext
        exact ⟨ts, rfl, of_decide_eq_true hnext⟩
    · rintro ⟨s, hs, h1, h2⟩
      have : hasActiveScan scans t.externalId = true := by
        rw [hasActiveScan, List.any_eq_true]
        exact ⟨s, hs, by simp [h1, h2]⟩
      rw [this] at hact
      exact absurd hact (by simp)
  · rintro ⟨hmem, hen, ⟨ts, hns, hts⟩, hnoact⟩
    refine ⟨hmem, ?_⟩
    simp only [isDue, Bool.and_eq_true, Bool.not_eq_true']
    refine ⟨⟨hen, ?_⟩, ?_⟩
    · rw [hns]; exact decide_eq_true hts
    · rw [Bool.eq_false_iff]
      intro hact
      rw [hasActiveScan, List.any_eq_true] at hact
      obtain ⟨s, hs, hcond⟩ := hact
      have := of_decide_eq_true hcond
      exact hnoact ⟨s, hs, this.1, this.2⟩

/-- C8 counterexample: for an enabled target with `scan_frequency_hours = 0`,
`update_target_schedule` leaves `next_scan_at` equal to `now` — not strictly
in the future. -/
theorem update_target_schedule_not_future :
    zeroFreqTarget.enabled = true ∧
    (∃ t, t ∈ updateTargetSchedule 100 "t1" "s1" [zeroFreqTarget] ∧
      t.nextScanAt = some 100) ∧
    ¬ ∃ t, t ∈ updateTargetSchedule 100 "t1" "s1" [zeroFreqTarget] ∧
      ∃ n, t.nextScanAt = some n ∧ (100 : Int) < n := by
  have hres : updateTargetSchedule 100 "t1" "s1" [zeroFreqTarget] =
      [{ zeroFreqTarget with lastScanAt := some 100, nextScanAt := some 100, lastScanId := some "s1" }] := by
    decide
  refine ⟨rfl, ⟨_, by rw [hres]; exact List.mem_singleton_self _, rfl⟩, ?_⟩
  rintro ⟨t, hmem, n, hn, hlt⟩
  rw [hres, List.mem_singleton] at hmem
  subst hmem
  simp only [zeroFreqTarget] at hn
  rw [Option.some_inj] at hn
  omega

/-- C8 (amended): `update_target_schedule` sets `last_scan_at = now`,
`next_scan_at = now + scan_frequency_hours` and `last_scan_id = scan_id` on
the matching row, and the new `next_scan_at` is strictly in the future
whenever the target's `scan_frequency_hours` is positive. -/
theorem update_target_schedule_spec (now : Int) (eid sid : String)
    (targets : List CatalogTarget) (row t : CatalogTarget)
    (hfind : targets.find? (fun x => x.externalId == eid) = some row)
    (ht : t ∈ targets) (heq : t.externalId = eid) :
    ∃ t', t' ∈ updateTargetSchedule now eid sid targets ∧
      t'.lastScanAt = some now ∧ t'.lastScanId = some sid ∧
      t'.nextScanAt = some (now + row.scanFrequencyHours * 3600) ∧
      (0 < row.scanFrequencyHours →
        now < now + row.scanFrequencyHours * 3600) := by
  have hmem : ({ t with lastScanAt := some now, nextScanAt := some (now + row.scanFrequencyHours * 3600), lastScanId := some sid } : CatalogTarget) ∈
      updateTargetSchedule now eid sid targets := by
    simp only [updateTargetSchedule]
    rw [hfind]
    exact List.mem_map.mpr ⟨t, ht, by rw [if_pos heq]⟩
  refine ⟨_, hmem, rfl, rfl, rfl, fun hpos => ?_⟩
  have h36 := mul_pos hpos (by norm_num : (0 : Int) < 3600)
  omega

/-- Witness for `update_target_schedule_spec` at a concrete store. -/
theorem update_target_schedule_spec_witness :
    ∃ t', t' ∈ updateTargetSchedule 50 "t1" "s9" [zeroFreqTarget] ∧
      t'.lastScanAt = some 50 ∧ t'.lastScanId = some "s9" ∧
      t'.nextScanAt = some (50 + zeroFreqTarget.scanFrequencyHours * 3600) ∧
      (0 < zeroFreqTarget.scanFrequencyHours →
        (50 : Int) < 50 + zeroFreqTarget.scanFrequencyHours * 3600) :=
  update_target_schedule_spec 50 "t1" "s9" [zeroFreqTarget] zeroFreqTarget
    zeroFreqTarget (by decide) (by decide) rfl

/-- C10: on a target already in the catalog, `upsert_target` rewrites only
host, ports, scan type, criticality (and its weight), scan frequency,
enabled flag, tags and `synced_at`; it leaves `next_scan_at`,
`last_scan_at`, `last_scan_id`, `created_at`, `gvm_target_id` and
`gvm_port_list_id` untouched. -/
theorem upsert_target_frame (now : Int) (inp : SyncTarget)
    (targets : List CatalogTarget) (t : CatalogTarget)
    (ht : t ∈ targets) (heq : t.externalId = inp.id) :
    ∃ t', t' ∈ upsertTarget now inp targets ∧
      t'.nextScanAt = t.nextScanAt ∧ t'.lastScanAt = t.lastScanAt ∧
      t'.lastScanId = t.lastScanId ∧ t'.createdAt = t.createdAt ∧
      t'.gvmTargetId = t.gvmTargetId ∧ t'.gvmPortListId = t.gvmPortListId ∧
      t'.scanConfig = t.scanConfig ∧
      t'.host = inp.host ∧ t'.ports = encodePorts inp.ports ∧
      t'.scanType = inp.scanType.getD "full" ∧
      t'.criticality = inp.criticality.getD "medium" ∧
      t'.criticalityWeight = criticalityWeightOf (inp.criticality.getD "medium") ∧
      t'.scanFrequencyHours = inp.scanFrequencyHours.getD 168 ∧
      t'.enabled = inp.enabled.getD true ∧ t'.tags = inp.tags ∧
      t'.syncedAt = now := by
  have hany : targets.any (fun x => x.externalId == inp.id) = true := by
    rw [List.any_eq_true]
    exact ⟨t, ht, by simp [heq]⟩
  have hmem : applySyncUpdate now inp t ∈ upsertTarget now inp targets := by
    rw [upsertTarget, if_pos hany]
    exact List.mem_map.mpr ⟨t, ht, by rw [if_pos heq]⟩
  exact ⟨applySyncUpdate now inp t, hmem, rfl, rfl, rfl, rfl, rfl, rfl, rfl,
    rfl, rfl, rfl, rfl, rfl, rfl, rfl, rfl, rfl⟩

/-- Witness for `upsert_target_frame` at a concrete row and payload. -/
theorem upsert_target_frame_witness :
    ∃ t', t' ∈ upsertTarget 9 syncInputExample [existingRowExample] ∧
      t'.nextScanAt = existingRowExample.nextScanAt ∧
      t'.lastScanAt = existingRowExample.lastScanAt ∧
      t'.lastScanId = existingRowExample.lastScanId ∧
      t'.createdAt = existingRowExample.createdAt ∧
      t'.gvmTargetId = existingRowExample.gvmTargetId ∧
      t'.gvmPortListId = existingRowExample.gvmPortListId ∧
      t'.scanConfig = existingRowExample.scanConfig ∧
      t'.host = syncInputExample.host ∧
      t'.ports = encodePorts syncInputExample.ports ∧
      t'.scanType = syncInputExample.scanType.getD "full" ∧
      t'.criticality = syncInputExample.criticality.getD "medium" ∧
      t'.criticalityWeight =
        criticalityWeightOf (syncInputExample.criticality.getD "medium") ∧
      t'.scanFrequencyHours = syncInputExample.scanFrequencyHours.getD 168 ∧
      t'.enabled = syncInputExample.enabled.getD true ∧
      t'.tags = syncInputExample.tags ∧
      t'.syncedAt = 9 :=
  upsert_target_frame 9 syncInputExample [existingRowExample]
    existingRowExample (by decide) (by decide)

theorem chooseMinProbe_min (counts : String → Nat) (rest : List String) :
    ∀ best, chooseMinProbe counts best rest ∈ best :: rest ∧
      ∀ r ∈ best :: rest, counts (chooseMinProbe counts best rest) ≤ counts r := by
  induction rest with
  | nil => intro best; simp [chooseMinProbe]
  | cons q rest ih =>
    intro best
    rw [chooseMinProbe]
    by_cases hlt : counts q < counts best
    · rw [if_pos hlt]
      obtain ⟨hmem, hmin⟩ := ih q
      constructor
      · rcases List.mem_cons.mp hmem with h | h
        · rw [h]; simp
        · exact List.mem_cons_of_mem _ (List.mem_cons_of_mem _ h)
      · intro r hr
        rcases List.mem_cons.mp hr with h | hr2
        · subst h
          have hq := hmin q (List.mem_cons_self _ _)
          omega
        · exact hmin r hr2
    · rw [if_neg hlt]
      obtain ⟨hmem, hmin⟩ := ih best
      constructor
      · rcases List.mem_cons.mp hmem with h | h
        · rw [h]; exact List.mem_cons_self _ _
        · exact List.mem_cons_of_mem _ (List.mem_cons_of_mem _ h)
      · intro r hr
        rcases List.mem_cons.mp hr with h | hr2
        · rw [h]
          exact hmin best (List.mem_cons_self _ _)
        · rcases List.mem_cons.mp hr2 with h | h
          · rw [h]
            have hb := hmin best (List.mem_cons_self _ _)
            omega
          · exact hmin r (List.mem_cons_of_mem _ h)

theorem chooseMinProbe_first (counts : String → Nat) (rest : List String) :
    ∀ best, ∃ l1 l2, best :: rest = l1 ++ chooseMinProbe counts best rest :: l2 ∧
      ∀ x ∈ l1, counts (chooseMinProbe counts best rest) < counts x := by
  induction rest with
  | nil =>
    intro best
    exact ⟨[], [], by simp [chooseMinProbe], by simp⟩
  | cons q rest ih =>
    intro best
    rw [chooseMinProbe]
    by_cases hlt : counts q < counts best
    · rw [if_pos hlt]
      obtain ⟨l1, l2, hdec, hgt⟩ := ih q
      refine ⟨best :: l1, l2, by rw [List.cons_append, ← hdec], ?_⟩
      intro x hx
      rcases List.mem_cons.mp hx with h | h
      · subst h
        have hle := (chooseMinProbe_min counts rest q).2 q (List.mem_cons_self _ _)
        omega
      · exact hgt x h
    · rw [if_neg hlt]
      obtain ⟨l1, l2, hdec, hgt⟩ := ih best
      cases l1 with
      | nil =>
        simp only [List.nil_append] at hdec
        have h1 : best = chooseMinProbe counts best rest := by
          simpa using congrArg List.head? hdec
        refine ⟨[], q :: rest, ?_, by simp⟩
        rw [← h1]
        simp
      | cons y l1t =>
        have hy : y = best := by
          have := congrArg List.head? hdec
          simpa using this.symm
        rw [hy] at hdec hgt
        have htail : rest = l1t ++ chooseMinProbe counts best rest :: l2 := by
          have := congrArg List.tail hdec
          simpa using this
        refine ⟨best :: q :: l1t, l2, by nth_rewrite 1 [htail]; simp, ?_⟩
        intro x hx
        have hbest : counts (chooseMinProbe counts best rest) < counts best :=
          hgt best (List.mem_cons_self _ _)
        rcases List.mem_cons.mp hx with h | h
        · subst h; exact hbest
        · rcases List.mem_cons.mp h with h2 | h2
          · subst h2; omega
          · exact hgt x (List.mem_cons_of_mem _ h2)

/-- C6: probe selection honours an explicit registered name, rejects an
explicit unknown name, and otherwise picks the probe with the minimum
active count, ties broken by configured order; in particular, with
`count_active_per_probe` giving `p1 ↦ 2, p2 ↦ 0`, a scan without an
explicit probe goes to `p2`. -/
theorem probe_selection_spec :
    (∀ (probes : List String) (p : String) (counts : String → Nat),
      p ∈ probes → selectProbe probes (some p) counts = .ok p) ∧
    (∀ (probes : List String) (p : String) (counts : String → Nat),
      p ∉ probes → ∃ e, selectProbe probes (some p) counts = .error e) ∧
    (∀ (p : String) (rest : List String) (counts : String → Nat),
      ∃ q l1 l2, selectProbe (p :: rest) none counts = .ok q ∧
        p :: rest = l1 ++ q :: l2 ∧
        (∀ r ∈ p :: rest, counts q ≤ counts r) ∧
        (∀ r ∈ l1, counts q < counts r)) ∧
    (∀ scans : List DbScan,
      countActivePerProbe scans "p1" = 2 → countActivePerProbe scans "p2" = 0 →
      selectProbe ["p1", "p2"] none (countActivePerProbe scans) = .ok "p2") := by
  refine ⟨?_, ?_, ?_, ?_⟩
  · intro probes p counts hp
    simp [selectProbe, hp]
  · intro probes p counts hp
    exact ⟨"Unknown probe: " ++ p, by simp [selectProbe, hp]⟩
  · intro p rest counts
    obtain ⟨l1, l2, hdec, hgt⟩ := chooseMinProbe_first counts rest p
    exact ⟨chooseMinProbe counts p rest, l1, l2, rfl, hdec,
      (chooseMinProbe_min counts rest p).2, hgt⟩
  · intro scans h1 h2
    simp only [selectProbe, chooseMinProbe, h1, h2]
    norm_num

/-- Witness for `probe_selection_spec`: the explicit-name branch at a
registered probe, and the load-balancing example `{p1: 2, p2: 0} ↦ p2`. -/
theorem probe_selection_spec_witness :
    selectProbe ["p1", "p2"] (some "p2") (countActivePerProbe loadExampleScans) = .ok "p2" ∧
    selectProbe ["p1", "p2"] none (countActivePerProbe loadExampleScans) = .ok "p2" :=
  ⟨probe_selection_spec.1 ["p1", "p2"] "p2" (countActivePerProbe loadExampleScans)
      (by decide),
    probe_selection_spec.2.2.2 loadExampleScans (by decide) (by decide)⟩

/-- The poll loop only touches status, progress and (on timeout) the error
field; every other field of the record survives it. -/
theorem pollLoop_preserves (env : GVMEnv) (p d : Nat) (tid : String) :
    ∀ fuel i r,
      ((pollLoop env p d tid r fuel i).1.gvmTaskId = r.gvmTaskId) ∧
      ((pollLoop env p d tid r fuel i).1.gvmTargetId = r.gvmTargetId) ∧
      ((pollLoop env p d tid r fuel i).1.gvmPortListId = r.gvmPortListId) ∧
      ((pollLoop env p d tid r fuel i).1.gvmReportId = r.gvmReportId) ∧
      ((pollLoop env p d tid r fuel i).1.reportXml = r.reportXml) ∧
      ((pollLoop env p d tid r fuel i).1.completedAt = r.completedAt) ∧
      ((pollLoop env p d tid r fuel i).1.summary = r.summary) ∧
      ((pollLoop env p d tid r fuel i).1.startedAt = r.startedAt) := by
  intro fuel
  induction fuel with
  | zero => intro i r; simp [pollLoop]
  | succ fuel ih =>
    intro i r
    simp only [pollLoop]
    split
    · cases env.stopTask <;> simp
    · cases hps : env.pollStatus i with
      | error e => simp
      | ok stpr =>
        obtain ⟨st, pr⟩ := stpr
        by_cases hterm : st ∈ TERMINAL_STATUSES
        · simp [hterm]
        · have hrec := ih (i + 1) { r with gvmStatus := st, gvmProgress := max 0 pr }
          rcases hpl : pollLoop env p d tid { r with gvmStatus := st, gvmProgress := max 0 pr } fuel (i + 1) with ⟨r2, t2, e2⟩
          rw [hpl] at hrec
          simp_all

/-- A poll loop that ends without raising ends either on a terminal status
or with the timeout error recorded. -/
theorem pollLoop_post (env : GVMEnv) (p d : Nat) (tid : String) :
    ∀ fuel i r, (pollLoop env p d tid r fuel i).2.2 = none →
      ((pollLoop env p d tid r fuel i).1.gvmStatus ∈ TERMINAL_STATUSES ∨
        (pollLoop env p d tid r fuel i).1.error ≠ none) := by
  intro fuel
  induction fuel with
  | zero => intro i r h; simp [pollLoop] at h
  | succ fuel ih =>
    intro i r
    simp only [pollLoop]
    split
    · cases env.stopTask <;> simp
    · cases hps : env.pollStatus i with
      | error e => simp
      | ok stpr =>
        obtain ⟨st, pr⟩ := stpr
        by_cases hterm : st ∈ TERMINAL_STATUSES
        · simp [hterm]
        · have hrec := ih (i + 1) { r with gvmStatus := st, gvmProgress := max 0 pr }
          rcases hpl : pollLoop env p d tid { r with gvmStatus := st, gvmProgress := max 0 pr } fuel (i + 1) with ⟨r2, t2, e2⟩
          rw [hpl] at hrec
          simp_all

/-- Every call the poll loop issues is a status poll or the stop on
timeout. -/
theorem pollLoop_calls (env : GVMEnv) (p d : Nat) (tid : String) :
    ∀ fuel i r c, c ∈ (pollLoop env p d tid r fuel i).2.1 →
      (∃ j, c = GmpCall.pollStatus j) ∨ c = GmpCall.stopTask tid := by
  intro fuel
  induction fuel with
  | zero => intro i r c h; simp [pollLoop] at h
  | succ fuel ih =>
    intro i r c
    simp only [pollLoop]
    split
    · cases env.stopTask <;> (simp; intro h; exact Or.inr h)
    · cases hps : env.pollStatus i with
      | error e => simp; intro h; exact Or.inl ⟨i, h⟩
      | ok stpr =>
        obtain ⟨st, pr⟩ := stpr
        by_cases hterm : st ∈ TERMINAL_STATUSES
        · simp [hterm]; intro h; exact Or.inl ⟨i, h⟩
        · have hrec := ih (i + 1) { r with gvmStatus := st, gvmProgress := max 0 pr } c
          rcases hpl : pollLoop env p d tid { r with gvmStatus := st, gvmProgress := max 0 pr } fuel (i + 1) with ⟨r2, t2, e2⟩
          rw [hpl] at hrec
          simp only [hterm, if_false, hpl]
          intro hmem
          rcases List.mem_cons.mp hmem with h | h
          · exact Or.inl ⟨i, h⟩
          · exact hrec h

/-- `_start_and_poll` never returns cleanly without having set
`completed_at` and reached a terminal status or recorded an error; it also
leaves resource ids, the report and the summary alone. -/
theorem startAndPoll_post (cfg : EngineConfig) (env : GVMEnv) (r : ScanRecord)
    (h : (startAndPoll cfg env r).2.2 = none) :
    ((startAndPoll cfg env r).1.completedAt = some 0) ∧
    ((startAndPoll cfg env r).1.gvmStatus ∈ TERMINAL_STATUSES ∨
      (startAndPoll cfg env r).1.error ≠ none) ∧
    ((startAndPoll cfg env r).1.gvmTaskId = r.gvmTaskId) ∧
    ((startAndPoll cfg env r).1.gvmTargetId = r.gvmTargetId) ∧
    ((startAndPoll cfg env r).1.gvmPortListId = r.gvmPortListId) ∧
    ((startAndPoll cfg env r).1.reportXml = r.reportXml) ∧
    ((startAndPoll cfg env r).1.summary = r.summary) := by
  unfold startAndPoll at h ⊢
  cases htid : r.gvmTaskId with
  | none => simp only [htid] at h; simp at h
  | some tid =>
    simp only [htid] at h
    cases hst : env.startTask with
    | error e => simp only [hst] at h; simp at h
    | ok rid =>
      simp only [hst] at h
      rcases hpl : pollLoop env cfg.pollInterval cfg.maxDuration tid
          { r with gvmTaskId := some tid, gvmReportId := some rid, startedAt := some 0 }
          (cfg.maxDuration + 2) 0 with ⟨r2, t2, e2⟩
      simp only [hpl] at h ⊢
      cases e2 with
      | some e => simp at h
      | none =>
        have hpost := pollLoop_post env cfg.pollInterval cfg.maxDuration tid
          (cfg.maxDuration + 2) 0 { r with gvmTaskId := some tid, gvmReportId := some rid, startedAt := some 0 }
        have hpres := pollLoop_preserves env cfg.pollInterval cfg.maxDuration tid
          (cfg.maxDuration + 2) 0 { r with gvmTaskId := some tid, gvmReportId := some rid, startedAt := some 0 }
        rw [hpl] at hpost hpres
        simp only at hpost hpres
        by_cases herr : r2.gvmStatus ∈ ERROR_STATUSES
        · simp only [herr, if_true, if_pos]
          refine ⟨by simp, Or.inr (by simp), ?_⟩
          simp_all
        · simp only [herr, if_false, if_neg, not_false_iff]
          refine ⟨by simp, ?_, ?_⟩
          · rcases hpost trivial with hterm | herr2
            · exact Or.inl (by simpa using hterm)
            · exact Or.inr (by simpa using herr2)
          · simp_all

/-- `_collect_report` keeps status, error and `completed_at`; it either
leaves the report alone or stores it while the status is `Done`. -/
theorem collectReport_post (env : GVMEnv) (r : ScanRecord) :
    ((collectReport env r).1.gvmStatus = r.gvmStatus) ∧
    ((collectReport env r).1.error = r.error) ∧
    ((collectReport env r).1.completedAt = r.completedAt) ∧
    ((collectReport env r).1.gvmTaskId = r.gvmTaskId) ∧
    ((collectReport env r).1.gvmTargetId = r.gvmTargetId) ∧
    ((collectReport env r).1.gvmPortListId = r.gvmPortListId) ∧
    ((collectReport env r).1.reportXml = r.reportXml ∨
      ((collectReport env r).1.reportXml ≠ none ∧ r.gvmStatus = "Done")) := by
  unfold collectReport
  cases hrid : r.gvmReportId with
  | none => simp
  | some rid =>
    by_cases hdone : r.gvmStatus = "Done"
    · cases hget : env.getReport with
      | error e => simp [hdone]
      | ok xml => simp [hdone]
    · simp [hdone]

/-- C1: a scan whose lifecycle worker has finished has `completed_at` set
exactly when its GVM status is terminal (`Done`, `Stopped`, `Interrupted`)
or its error field is set — and every failure path sets `completed_at`
together with `error`. -/
theorem scan_completed_iff_terminal_or_error (cfg : EngineConfig)
    (env : GVMEnv) (r0 : ScanRecord) :
    ((runScanBlocking cfg env r0).1.completedAt ≠ none) ↔
    ((runScanBlocking cfg env r0).1.gvmStatus ∈ TERMINAL_STATUSES ∨
      (runScanBlocking cfg env r0).1.error ≠ none) := by
  have hboth : ((runScanBlocking cfg env r0).1.completedAt ≠ none) ∧
      ((runScanBlocking cfg env r0).1.gvmStatus ∈ TERMINAL_STATUSES ∨
        (runScanBlocking cfg env r0).1.error ≠ none) := by
    unfold runScanBlocking
    cases env.connect with
    | error e => simp [markFailed]
    | ok _ =>
      rcases hcr : createGvmResources env r0 with ⟨r1, t1, e1⟩
      simp only [hcr]
      cases e1 with
      | some e => simp [markFailed]
      | none =>
        rcases hsp : startAndPoll cfg env r1 with ⟨r2, t2, e2⟩
        simp only [hsp]
        cases e2 with
        | some e => simp [markFailed]
        | none =>
          have hsap := startAndPoll_post cfg env r1 (by rw [hsp])
          rw [hsp] at hsap
          simp only at hsap
          rcases hcl : collectReport env r2 with ⟨r3, t3, e3⟩
          simp only [hcl]
          cases e3 with
          | some e => simp [markFailed]
          | none =>
            have hcol := collectReport_post env r2
            rw [hcl] at hcol
            simp only at hcol
            show r3.completedAt ≠ none ∧
              (r3.gvmStatus ∈ TERMINAL_STATUSES ∨ r3.error ≠ none)
            constructor
            · rw [hcol.2.2.1, hsap.1]; simp
            · rw [hcol.1, hcol.2.1]
              exact hsap.2.1
  exact iff_of_true hboth.1 hboth.2

theorem createPortListStep_preserves (env : GVMEnv) (r : ScanRecord) :
    ((createPortListStep env r).1.reportXml = r.reportXml) ∧
    ((createPortListStep env r).1.gvmStatus = r.gvmStatus) ∧
    ((createPortListStep env r).1.gvmTaskId = r.gvmTaskId) ∧
    ((createPortListStep env r).1.gvmTargetId = r.gvmTargetId) ∧
    ((createPortListStep env r).1.error = r.error) ∧
    ((createPortListStep env r).1.completedAt = r.completedAt) := by
  unfold createPortListStep
  by_cases hd : r.scanType = ScanType.directed ∧ portsTruthy r = true
  · rw [if_pos hd]
    cases env.createPortList <;> simp
  · rw [if_neg hd]
    simp

theorem createPortListStep_ok (env : GVMEnv) (r : ScanRecord) (plid : String)
    (h : env.createPortList = .ok plid) :
    (createPortListStep env r).2.2 = none := by
  unfold createPortListStep
  by_cases hd : r.scanType = ScanType.directed ∧ portsTruthy r = true
  · rw [if_pos hd, h]
  · rw [if_neg hd]

theorem createGvmResources_ok (env : GVMEnv) (r : ScanRecord)
    (rp : ScanRecord) (tp : List GmpCall) (tid kid : String)
    (hps : createPortListStep env r = (rp, tp, none))
    (htg : env.createTarget = .ok tid) (htk : env.createTask = .ok kid) :
    createGvmResources env r =
      ({ rp with gvmTargetId := some tid, gvmTaskId := some kid },
        tp ++ [GmpCall.createTarget ("scan-" ++ r.scanId ++ "-target"),
               GmpCall.createTask ("scan-" ++ r.scanId)], none) := by
  unfold createGvmResources
  rw [hps, htg, htk]

theorem createGvmResources_preserves (env : GVMEnv) (r : ScanRecord) :
    ((createGvmResources env r).1.reportXml = r.reportXml) ∧
    ((createGvmResources env r).1.gvmStatus = r.gvmStatus) ∧
    ((createGvmResources env r).1.error = r.error) ∧
    ((createGvmResources env r).1.completedAt = r.completedAt) := by
  have hp := createPortListStep_preserves env r
  rcases hps : createPortListStep env r with ⟨rp, tp, ep⟩
  rw [hps] at hp
  simp only at hp
  unfold createGvmResources
  rw [hps]
  cases ep with
  | some e => simp [hp.1, hp.2.1, hp.2.2.2.2.1, hp.2.2.2.2.2]
  | none =>
    cases env.createTarget with
    | error e => simp [hp.1, hp.2.1, hp.2.2.2.2.1, hp.2.2.2.2.2]
    | ok tid =>
      cases env.createTask with
      | error e => simp [hp.1, hp.2.1, hp.2.2.2.2.1, hp.2.2.2.2.2]
      | ok kid => simp [hp.1, hp.2.1, hp.2.2.2.2.1, hp.2.2.2.2.2]

/-- `_start_and_poll` never touches the resource ids, the report or the
port list id, on any exit path. -/
theorem startAndPoll_preserves (cfg : EngineConfig) (env : GVMEnv) (r : ScanRecord) :
    ((startAndPoll cfg env r).1.reportXml = r.reportXml) ∧
    ((startAndPoll cfg env r).1.gvmPortListId = r.gvmPortListId) ∧
    ((startAndPoll cfg env r).1.gvmTargetId = r.gvmTargetId) ∧
    ((startAndPoll cfg env r).1.gvmTaskId = r.gvmTaskId) := by
  unfold startAndPoll
  cases htid : r.gvmTaskId with
  | none => simp [htid]
  | some tid =>
    cases hst : env.startTask with
    | error e => simp [htid]
    | ok rid =>
      have hpres := pollLoop_preserves env cfg.pollInterval cfg.maxDuration tid
        (cfg.maxDuration + 2) 0
        { r with gvmTaskId := some tid, gvmReportId := some rid, startedAt := some 0 }
      rcases hpl : pollLoop env cfg.pollInterval cfg.maxDuration tid
          { r with gvmTaskId := some tid, gvmReportId := some rid, startedAt := some 0 }
          (cfg.maxDuration + 2) 0 with ⟨r2, t2, e2⟩
      rw [hpl] at hpres
      simp only at hpres
      simp only [hpl]
      cases e2 with
      | some e => simp_all
      | none =>
        by_cases herr : r2.gvmStatus ∈ ERROR_STATUSES
        · simp only [herr, if_true, if_pos]
          simp_all
        · simp only [herr, if_false, if_neg, not_false_iff]
          simp_all

/-- C9: cleanup attempts to delete the task, then the target, then the port
list, each only when its id was persisted, and the attempted deletions do
not depend on the outcome of any deletion — an earlier failure can neither
propagate nor prevent the later deletions. -/
theorem cleanup_best_effort (env env2 : GVMEnv) (r : ScanRecord) :
    (cleanupTrace env r =
      (match r.gvmTaskId with
        | some i => [GmpCall.deleteTask i]
        | none => []) ++
      (match r.gvmTargetId with
        | some i => [GmpCall.deleteTarget i]
        | none => []) ++
      (match r.gvmPortListId with
        | some i => [GmpCall.deletePortList i]
        | none => [])) ∧
    cleanupTrace env r = cleanupTrace env2 r := by
  unfold cleanupTrace
  constructor
  · cases r.gvmTaskId <;> cases r.gvmTargetId <;> cases r.gvmPortListId <;>
      cases env.deleteTask <;> cases env.deleteTarget <;> cases env.deletePortList <;> rfl
  · cases r.gvmTaskId <;> cases r.gvmTargetId <;> cases r.gvmPortListId <;>
      cases env.deleteTask <;> cases env.deleteTarget <;> cases env.deletePortList <;>
      cases env2.deleteTask <;> cases env2.deleteTarget <;> cases env2.deletePortList <;> rfl

/-- C3: a finished scan carries a report only when its GVM status is
`Done`; every other terminal status leaves `report_xml` (and the summary)
unset. -/
theorem report_only_when_done (cfg : EngineConfig) (env : GVMEnv)
    (r0 : ScanRecord) (h0 : r0.reportXml = none) :
    (runScanBlocking cfg env r0).1.reportXml ≠ none →
    (runScanBlocking cfg env r0).1.gvmStatus = "Done" := by
  unfold runScanBlocking
  cases hc : env.connect with
  | error e => simp [markFailed, h0]
  | ok _ =>
    have hcrp := createGvmResources_preserves env r0
    rcases hcr : createGvmResources env r0 with ⟨r1, t1, e1⟩
    rw [hcr] at hcrp
    simp only at hcrp
    have hr1 : r1.reportXml = none := by rw [hcrp.1, h0]
    simp only [hcr]
    cases e1 with
    | some e => simp [markFailed, hr1]
    | none =>
      have hspp := startAndPoll_preserves cfg env r1
      rcases hsp : startAndPoll cfg env r1 with ⟨r2, t2, e2⟩
      rw [hsp] at hspp
      simp only at hspp
      have hr2 : r2.reportXml = none := by rw [hspp.1, hr1]
      simp only [hsp]
      cases e2 with
      | some e => simp [markFailed, hr2]
      | none =>
        have hcol := collectReport_post env r2
        rcases hcl : collectReport env r2 with ⟨r3, t3, e3⟩
        rw [hcl] at hcol
        simp only at hcol
        simp only [hcl]
        cases e3 with
        | some e =>
          show (markFailed r3 e).reportXml ≠ none → (markFailed r3 e).gvmStatus = "Done"
          intro hne
          rcases hcol.2.2.2.2.2.2 with hsame | ⟨_, hdone⟩
          · exact absurd (by show r3.reportXml = none; rw [hsame, hr2]) hne
          · show r3.gvmStatus = "Done"
            rw [hcol.1, hdone]
        | none =>
          show r3.reportXml ≠ none → r3.gvmStatus = "Done"
          intro hne
          rcases hcol.2.2.2.2.2.2 with hsame | ⟨_, hdone⟩
          · exact absurd (by rw [hsame, hr2]) hne
          · rw [hcol.1, hdone]

/-- Witness for `report_only_when_done` at a concrete fresh record. -/
theorem report_only_when_done_witness :
    timeoutRec.reportXml = none ∧
    ((runScanBlocking timeoutCfg timeoutEnv timeoutRec).1.reportXml ≠ none →
      (runScanBlocking timeoutCfg timeoutEnv timeoutRec).1.gvmStatus = "Done") :=
  ⟨rfl, report_only_when_done timeoutCfg timeoutEnv timeoutRec rfl⟩

/-- With a positive poll interval, statuses that never turn terminal and a
stop that succeeds, the poll loop reaches the timeout branch before its
fuel runs out: it exits cleanly having called `stop_task`, with the timeout
message recorded and a non-terminal status. -/
theorem pollLoop_timeout (env : GVMEnv) (p d : Nat) (tid : String)
    (hpoll : ∀ j, ∃ st pr, env.pollStatus j = .ok (st, pr) ∧ st ∉ TERMINAL_STATUSES)
    (hstop : env.stopTask = .ok ()) :
    ∀ fuel i r, i * p ≤ d + p → d + p < i * p + fuel * p →
      r.gvmStatus ∉ TERMINAL_STATUSES →
      ((pollLoop env p d tid r fuel i).2.2 = none) ∧
      (GmpCall.stopTask tid ∈ (pollLoop env p d tid r fuel i).2.1) ∧
      (∃ el, d < el ∧ (pollLoop env p d tid r fuel i).1.error = some (timeoutMsg el d)) ∧
      ((pollLoop env p d tid r fuel i).1.gvmStatus ∉ TERMINAL_STATUSES) := by
  intro fuel
  induction fuel with
  | zero =>
    intro i r h1 h2 h3
    exfalso
    simp only [Nat.zero_mul] at h2
    omega
  | succ fuel ih =>
    intro i r h1 h2 h3
    simp only [pollLoop]
    by_cases ht : d < i * p
    · rw [if_pos ht, hstop]
      exact ⟨rfl, by simp, ⟨i * p, ht, by simp⟩, by simpa using h3⟩
    · obtain ⟨st, pr, hj, hnt⟩ := hpoll i
      have harith1 : (i + 1) * p ≤ d + p := by
        have hs : (i + 1) * p = i * p + p := by ring
        omega
      have harith2 : d + p < (i + 1) * p + fuel * p := by
        have hs : (i + 1) * p = i * p + p := by ring
        have hf : (fuel + 1) * p = fuel * p + p := by ring
        omega
      have ihc := ih (i + 1) { r with gvmStatus := st, gvmProgress := max 0 pr }
        harith1 harith2 (by simpa using hnt)
      rcases hpl2 : pollLoop env p d tid { r with gvmStatus := st, gvmProgress := max 0 pr }
          fuel (i + 1) with ⟨r2, t2, e2⟩
      rw [hpl2] at ihc
      simp only at ihc
      simp only [if_neg ht, hj, if_neg hnt, hpl2]
      exact ⟨ihc.1, List.mem_cons_of_mem _ ihc.2.1, ihc.2.2.1, ihc.2.2.2⟩

/-- C7: once elapsed polling time exceeds `max_duration` (polls never turn
terminal), the engine stops the GMP task, records a timeout error, sets
`completed_at`, and still attempts cleanup of the task and target
afterwards. -/
theorem scan_timeout_spec
    (cfg : EngineConfig) (env : GVMEnv) (r0 rp : ScanRecord) (tp : List GmpCall)
    (tid kid rid : String)
    (hp : 1 ≤ cfg.pollInterval)
    (hclean : cfg.cleanupAfterReport = true)
    (hconn : env.connect = .ok ())
    (hps : createPortListStep env r0 = (rp, tp, none))
    (htg : env.createTarget = .ok tid)
    (htk : env.createTask = .ok kid)
    (hst : env.startTask = .ok rid)
    (hpoll : ∀ j, ∃ st pr, env.pollStatus j = .ok (st, pr) ∧ st ∉ TERMINAL_STATUSES)
    (hstop : env.stopTask = .ok ())
    (hs0 : r0.gvmStatus ∉ TERMINAL_STATUSES) :
    (GmpCall.stopTask kid ∈ (runScanBlocking cfg env r0).2) ∧
    (∃ el, cfg.maxDuration < el ∧
      (runScanBlocking cfg env r0).1.error = some (timeoutMsg el cfg.maxDuration)) ∧
    ((runScanBlocking cfg env r0).1.completedAt ≠ none) ∧
    (GmpCall.deleteTask kid ∈ (runScanBlocking cfg env r0).2) ∧
    (GmpCall.deleteTarget tid ∈ (runScanBlocking cfg env r0).2) := by
  have hgr := createGvmResources_ok env r0 rp tp tid kid hps htg htk
  have hpres0 := createPortListStep_preserves env r0
  rw [hps] at hpres0
  simp only at hpres0
  have harith0 : 0 * cfg.pollInterval ≤ cfg.maxDuration + cfg.pollInterval := by
    simp
  have harith1 : cfg.maxDuration + cfg.pollInterval <
      0 * cfg.pollInterval + (cfg.maxDuration + 2) * cfg.pollInterval := by
    have h4 : (cfg.maxDuration + 2) * cfg.pollInterval
        = cfg.maxDuration * cfg.pollInterval + 2 * cfg.pollInterval := Nat.add_mul _ _ _
    have h5 : cfg.maxDuration * 1 ≤ cfg.maxDuration * cfg.pollInterval :=
      Nat.mul_le_mul_left _ hp
    omega
  have hloop := pollLoop_timeout env cfg.pollInterval cfg.maxDuration kid hpoll hstop
    (cfg.maxDuration + 2) 0
    { rp with gvmTargetId := some tid, gvmTaskId := some kid, gvmReportId := some rid, startedAt := some 0 }
    harith0 harith1 (by show rp.gvmStatus ∉ TERMINAL_STATUSES; rw [hpres0.2.1]; exact hs0)
  have hprloop := pollLoop_preserves env cfg.pollInterval cfg.maxDuration kid
    (cfg.maxDuration + 2) 0
    { rp with gvmTargetId := some tid, gvmTaskId := some kid, gvmReportId := some rid, startedAt := some 0 }
  rcases hpl : pollLoop env cfg.pollInterval cfg.maxDuration kid
      { rp with gvmTargetId := some tid, gvmTaskId := some kid, gvmReportId := some rid, startedAt := some 0 }
      (cfg.maxDuration + 2) 0 with ⟨rL, tL, eL⟩
  rw [hpl] at hloop hprloop
  simp only at hloop hprloop
  obtain ⟨hnone, hmemstop, ⟨el, hel, herrL⟩, hntermL⟩ := hloop
  subst hnone
  have hnoerr : rL.gvmStatus ∉ ERROR_STATUSES :=
    fun hmem => hntermL (error_subset_terminal _ hmem)
  have hsap_eq : startAndPoll cfg env { rp with gvmTargetId := some tid, gvmTaskId := some kid } =
      ({ rL with completedAt := some 0 }, GmpCall.startTask kid :: tL, none) := by
    unfold startAndPoll
    simp only [hst, hpl, if_neg hnoerr]
  have htaskL : rL.gvmTaskId = some kid := by rw [hprloop.1]
  have htargL : rL.gvmTargetId = some tid := by rw [hprloop.2.1]
  have hrid : rL.gvmReportId = some rid := by rw [hprloop.2.2.2.1]
  have hndone : ¬ rL.gvmStatus = "Done" := by
    intro hd
    apply hntermL
    rw [hd]
    decide
  have hcl_eq : collectReport env ({ rL with completedAt := some 0 }) =
      ({ rL with completedAt := some 0 }, [], none) := by
    unfold collectReport
    simp only [hrid, if_neg hndone]
  have hdelTask : GmpCall.deleteTask kid ∈ cleanupTrace env ({ rL with completedAt := some 0 }) := by
    unfold cleanupTrace
    simp only [htaskL, htargL]
    cases env.deleteTask <;> cases env.deleteTarget <;> cases env.deletePortList <;>
      cases hplL : rL.gvmPortListId <;> simp [hplL]
  have hdelTarget : GmpCall.deleteTarget tid ∈ cleanupTrace env ({ rL with completedAt := some 0 }) := by
    unfold cleanupTrace
    simp only [htaskL, htargL]
    cases env.deleteTask <;> cases env.deleteTarget <;> cases env.deletePortList <;>
      cases hplL : rL.gvmPortListId <;> simp [hplL]
  unfold runScanBlocking
  simp only [hconn, hgr, hsap_eq, hcl_eq, if_pos hclean]
  refine ⟨?_, ⟨el, hel, by simpa using herrL⟩, by simp, ?_, ?_⟩
  · simp [List.mem_append, hmemstop]
  · simp [List.mem_append, hdelTask]
  · simp [List.mem_append, hdelTarget]

/-- Witness for `scan_timeout_spec` on a concrete never-finishing scan. -/
theorem scan_timeout_spec_witness :
    (GmpCall.stopTask "K1" ∈ (runScanBlocking timeoutCfg timeoutEnv timeoutRec).2) ∧
    (∃ el, timeoutCfg.maxDuration < el ∧
      (runScanBlocking timeoutCfg timeoutEnv timeoutRec).1.error =
        some (timeoutMsg el timeoutCfg.maxDuration)) ∧
    ((runScanBlocking timeoutCfg timeoutEnv timeoutRec).1.completedAt ≠ none) ∧
    (GmpCall.deleteTask "K1" ∈ (runScanBlocking timeoutCfg timeoutEnv timeoutRec).2) ∧
    (GmpCall.deleteTarget "T1" ∈ (runScanBlocking timeoutCfg timeoutEnv timeoutRec).2) :=
  scan_timeout_spec timeoutCfg timeoutEnv timeoutRec timeoutRec [] "T1" "K1" "R1"
    (by decide) rfl rfl rfl rfl rfl rfl
    (fun _ => ⟨"Running", 10, rfl, by decide⟩) rfl (by decide)

theorem createPortListStep_directed (env : GVMEnv) (r : ScanRecord)
    (plid : String) (ps : List Nat)
    (hty : r.scanType = ScanType.directed) (hports : r.ports = some ps) (hne : ps ≠ [])
    (hok : env.createPortList = .ok plid) :
    createPortListStep env r =
      ({ r with gvmPortListId := some plid },
        [GmpCall.createPortList ("scan-" ++ r.scanId ++ "-ports") (portRangeString ps)],
        none) := by
  have htr : portsTruthy r = true := by
    cases ps with
    | nil => exact absurd rfl hne
    | cons a l => simp [portsTruthy, hports]
  unfold createPortListStep
  rw [if_pos ⟨hty, htr⟩, hok, hports]
  simp

theorem createPortListStep_skip (env : GVMEnv) (r : ScanRecord)
    (hty : r.scanType = ScanType.full) :
    createPortListStep env r = (r, [], none) := by
  unfold createPortListStep
  rw [if_neg]
  rintro ⟨hd, _⟩
  rw [hty] at hd
  exact ScanType.noConfusion hd

/-- The created-resources step keeps the persisted port-list id and keeps
every call of the port-list step in its trace. -/
theorem createGvmResources_portList (env : GVMEnv) (r : ScanRecord)
    (rp : ScanRecord) (tp : List GmpCall)
    (hstep : createPortListStep env r = (rp, tp, none)) :
    ((createGvmResources env r).1.gvmPortListId = rp.gvmPortListId) ∧
    (∀ c ∈ tp, c ∈ (createGvmResources env r).2.1) := by
  unfold createGvmResources
  rw [hstep]
  cases env.createTarget with
  | error e => exact ⟨rfl, fun c hc => List.mem_append_left _ hc⟩
  | ok tid =>
    cases env.createTask with
    | error e => exact ⟨rfl, fun c hc => List.mem_append_left _ hc⟩
    | ok kid => exact ⟨rfl, fun c hc => List.mem_append_left _ hc⟩

/-- With a skipped port-list step, no call of the resource-creation trace is
a `create_port_list`. -/
theorem createGvmResources_noPortList (env : GVMEnv) (r : ScanRecord)
    (hstep : createPortListStep env r = (r, [], none)) :
    ∀ c ∈ (createGvmResources env r).2.1, isCreatePortListCall c = false := by
  unfold createGvmResources
  rw [hstep]
  cases env.createTarget with
  | error e => simp [isCreatePortListCall]
  | ok tid =>
    cases env.createTask with
    | error e => simp [isCreatePortListCall]
    | ok kid => simp [isCreatePortListCall]

theorem startAndPoll_noPortList (cfg : EngineConfig) (env : GVMEnv) (r : ScanRecord) :
    ∀ c ∈ (startAndPoll cfg env r).2.1, isCreatePortListCall c = false := by
  unfold startAndPoll
  cases htid : r.gvmTaskId with
  | none => simp
  | some tid =>
    cases hst : env.startTask with
    | error e => simp [isCreatePortListCall]
    | ok rid =>
      have hcalls := pollLoop_calls env cfg.pollInterval cfg.maxDuration tid
        (cfg.maxDuration + 2) 0
        { r with gvmTaskId := some tid, gvmReportId := some rid, startedAt := some 0 }
      rcases hpl : pollLoop env cfg.pollInterval cfg.maxDuration tid
          { r with gvmTaskId := some tid, gvmReportId := some rid, startedAt := some 0 }
          (cfg.maxDuration + 2) 0 with ⟨r2, t2, e2⟩
      rw [hpl] at hcalls
      simp only at hcalls
      simp only [hpl]
      have htail : ∀ c ∈ t2, isCreatePortListCall c = false := by
        intro c hc
        rcases hcalls c hc with ⟨j, hj⟩ | hj <;> rw [hj] <;> rfl
      cases e2 with
      | some e =>
        intro c hc
        rcases List.mem_cons.mp hc with h | h
        · rw [h]; rfl
        · exact htail c h
      | none =>
        intro c hc
        rcases List.mem_cons.mp hc with h | h
        · rw [h]; rfl
        · exact htail c h

theorem collectReport_noPortList (env : GVMEnv) (r : ScanRecord) :
    ∀ c ∈ (collectReport env r).2.1, isCreatePortListCall c = false := by
  unfold collectReport
  cases r.gvmReportId with
  | none => simp
  | some rid =>
    by_cases hdone : r.gvmStatus = "Done"
    · cases hget : env.getReport <;> simp [hdone, hget, isCreatePortListCall]
    · simp [hdone]

theorem cleanupTrace_noPortList (env : GVMEnv) (r : ScanRecord) :
    ∀ c ∈ cleanupTrace env r, isCreatePortListCall c = false := by
  unfold cleanupTrace
  cases r.gvmTaskId <;> cases r.gvmTargetId <;> cases r.gvmPortListId <;>
    cases env.deleteTask <;> cases env.deleteTarget <;> cases env.deletePortList <;>
    simp [isCreatePortListCall]

/-- C4: a directed scan with ports `p1..pn` issues exactly the GMP
`create_port_list` call named `scan-<scan_id>-ports` with port range
`T:p1,T:p2,…` and persists the returned id as `gvm_port_list_id`; a full
scan never issues a `create_port_list` call. -/
theorem port_list_spec :
    (∀ (cfg : EngineConfig) (env : GVMEnv) (r0 : ScanRecord) (plid : String) (ps : List Nat),
      r0.scanType = ScanType.directed → r0.ports = some ps → ps ≠ [] →
      env.connect = .ok () → env.createPortList = .ok plid →
      (GmpCall.createPortList ("scan-" ++ r0.scanId ++ "-ports") (portRangeString ps)
          ∈ (runScanBlocking cfg env r0).2) ∧
      ((runScanBlocking cfg env r0).1.gvmPortListId = some plid)) ∧
    (∀ (cfg : EngineConfig) (env : GVMEnv) (r0 : ScanRecord),
      r0.scanType = ScanType.full →
      ∀ c ∈ (runScanBlocking cfg env r0).2, isCreatePortListCall c = false) := by
  constructor
  · intro cfg env r0 plid ps hty hports hne hconn hplok
    have hstep := createPortListStep_directed env r0 plid ps hty hports hne hplok
    have hkeep := createGvmResources_portList env r0
      { r0 with gvmPortListId := some plid }
      [GmpCall.createPortList ("scan-" ++ r0.scanId ++ "-ports") (portRangeString ps)]
      hstep
    rcases hcr : createGvmResources env r0 with ⟨r1, t1, e1⟩
    rw [hcr] at hkeep
    simp only at hkeep
    have hmem1 : GmpCall.createPortList ("scan-" ++ r0.scanId ++ "-ports") (portRangeString ps) ∈ t1 :=
      hkeep.2 _ (List.mem_singleton_self _)
    have hid1 : r1.gvmPortListId = some plid := hkeep.1
    unfold runScanBlocking
    rw [hconn]
    simp only [hcr]
    cases e1 with
    | some e => exact ⟨by simpa using hmem1, by simpa [markFailed] using hid1⟩
    | none =>
      have hspp := startAndPoll_preserves cfg env r1
      rcases hsp : startAndPoll cfg env r1 with ⟨r2, t2, e2⟩
      rw [hsp] at hspp
      simp only at hspp
      have hid2 : r2.gvmPortListId = some plid := by rw [hspp.2.1, hid1]
      simp only [hsp]
      cases e2 with
      | some e =>
        exact ⟨by simp [List.mem_append, hmem1], by simpa [markFailed] using hid2⟩
      | none =>
        have hcol := collectReport_post env r2
        rcases hcl : collectReport env r2 with ⟨r3, t3, e3⟩
        rw [hcl] at hcol
        simp only at hcol
        have hid3 : r3.gvmPortListId = some plid := by rw [hcol.2.2.2.2.2.1, hid2]
        simp only [hcl]
        cases e3 with
        | some e =>
          exact ⟨by simp [List.mem_append, hmem1], by simpa [markFailed] using hid3⟩
        | none =>
          exact ⟨by simp [List.mem_append, hmem1], by simpa using hid3⟩
  · intro cfg env r0 hty
    have hstep := createPortListStep_skip env r0 hty
    have hnone1 := createGvmResources_noPortList env r0 hstep
    rcases hcr : createGvmResources env r0 with ⟨r1, t1, e1⟩
    rw [hcr] at hnone1
    simp only at hnone1
    unfold runScanBlocking
    cases hc : env.connect with
    | error e => simp
    | ok _ =>
      simp only [hcr]
      cases e1 with
      | some e => simpa using hnone1
      | none =>
        have hnone2 := startAndPoll_noPortList cfg env r1
        rcases hsp : startAndPoll cfg env r1 with ⟨r2, t2, e2⟩
        rw [hsp] at hnone2
        simp only at hnone2
        simp only [hsp]
        cases e2 with
        | some e =>
          intro c hc2
          rcases List.mem_append.mp (by simpa using hc2) with h | h
          · exact hnone1 c h
          · exact hnone2 c h
        | none =>
          have hnone3 := collectReport_noPortList env r2
          rcases hcl : collectReport env r2 with ⟨r3, t3, e3⟩
          rw [hcl] at hnone3
          simp only at hnone3
          simp only [hcl]
          cases e3 with
          | some e =>
            intro c hc3
            have hc4 : c ∈ t1 ∨ c ∈ t2 ∨ c ∈ t3 := by simpa using hc3
            rcases hc4 with h | h | h
            · exact hnone1 c h
            · exact hnone2 c h
            · exact hnone3 c h
          | none =>
            intro c hc3
            have hc4 : c ∈ t1 ++ t2 ++ t3 ++
                (if cfg.cleanupAfterReport = true then cleanupTrace env r3 else []) := by
              simpa using hc3
            rcases List.mem_append.mp hc4 with h | h
            · rcases List.mem_append.mp h with h2 | h2
              · rcases List.mem_append.mp h2 with h3 | h3
                · exact hnone1 c h3
                · exact hnone2 c h3
              · exact hnone3 c h2
            · rcases hcc : cfg.cleanupAfterReport with _ | _
              · rw [hcc] at h; simp at h
              · rw [hcc] at h
                simp only [if_true] at h
                exact cleanupTrace_noPortList env r3 c (by simpa using h)

/-- Witness for `port_list_spec` on the three-port directed scan: the GMP
adapter sees `port_range == "T:22,T:80,T:443"` and the id is persisted. -/
theorem port_list_spec_witness :
    (GmpCall.createPortList "scan-s2-ports" "T:22,T:80,T:443"
        ∈ (runScanBlocking timeoutCfg timeoutEnv directedRec).2) ∧
    ((runScanBlocking timeoutCfg timeoutEnv directedRec).1.gvmPortListId = some "PL1") := by
  have h := port_list_spec.1 timeoutCfg timeoutEnv directedRec "PL1" [22, 80, 443]
    rfl rfl (by decide) rfl rfl
  have hstr : portRangeString [22, 80, 443] = "T:22,T:80,T:443" := rfl
  have hname : "scan-" ++ directedRec.scanId ++ "-ports" = "scan-s2-ports" := rfl
  rw [hstr, hname] at h
  exact h

end ScanHub
